import Mathlib

/-!
Verification development for the layout-reconstruction pipeline
(`src/postprocess.ts`, `src/utils.ts`, the second-variant justify module and
`src/vnode/helpers.ts`).  The TypeScript code is shallowly embedded:
coordinates become `Int` (integer pixels; the only two places where the
source's floating-point arithmetic can leave the integers are noted at their
definitions), in-place mutation becomes explicit state passing, `undefined`
fields become `Option`, and the module-level `context.index` counter is
threaded explicitly.
-/

namespace H5

/-- flex direction (`Direction` in `vnode`); `Option Dir = none` encodes
`Direction.Unknown = ''` / `undefined`. -/
inductive Dir where
  | row
  | col
deriving DecidableEq, Repr

/-- size spec (`SizeSpec`); `Option SSpec = none` encodes
`SizeSpec.Unknown = ''` / `undefined`. -/
inductive SSpec where
  | fixed
  | auto
  | constrained
deriving DecidableEq, Repr

/-- the shape of `textContent` as far as the pipeline observes it:
absent, a plain string (single line), or an array of styled runs
(multi-line). -/
inductive TextKind where
  | noText
  | singleLine
  | multiLine
deriving DecidableEq, Repr

/-- `VNode.bounds`: absolute pixel box.  `width`/`height` are stored fields,
independent of `right - left` / `bottom - top` (their agreement is exactly
the invariant claims C1/C10 are about). -/
structure NBounds where
  left : Int
  top : Int
  right : Int
  bottom : Int
  width : Int
  height : Int
deriving DecidableEq, Repr

/-- the non-recursive payload of a `VNode`.  `role` is modelled as a list of
tags (the second variant's representation); the first variant's single-string
`role` field is the singleton (or empty) list.  `style`/`attributes`/`tagName`
are omitted: no embedded function reads them. -/
structure VData where
  classList : List String := []
  bounds : NBounds
  text : TextKind := .noText
  role : List String := []
  direction : Option Dir := none
  widthSpec : Option SSpec := none
  heightSpec : Option SSpec := none
  index : Nat := 0
deriving DecidableEq, Repr

/-- a virtual node: payload plus `children` and `attachNodes`. -/
inductive VNode where
  | mk (data : VData) (children : List VNode) (attachNodes : List VNode)

def VNode.data : VNode → VData
  | .mk d _ _ => d

def VNode.children : VNode → List VNode
  | .mk _ c _ => c

def VNode.attachNodes : VNode → List VNode
  | .mk _ _ a => a

def VNode.bounds (v : VNode) : NBounds := v.data.bounds

def VNode.index (v : VNode) : Nat := v.data.index

def VNode.withData (v : VNode) (d : VData) : VNode := .mk d v.children v.attachNodes

def VNode.withChildren (v : VNode) (c : List VNode) : VNode := .mk v.data c v.attachNodes

def VNode.withAttach (v : VNode) (a : List VNode) : VNode := .mk v.data v.children a

@[simp] theorem VNode.data_mk (d : VData) (c a : List VNode) : (VNode.mk d c a).data = d := rfl

@[simp] theorem VNode.children_mk (d : VData) (c a : List VNode) :
    (VNode.mk d c a).children = c := rfl

@[simp] theorem VNode.attachNodes_mk (d : VData) (c a : List VNode) :
    (VNode.mk d c a).attachNodes = a := rfl

/-- a leaf node from a data payload. -/
def leaf (d : VData) : VNode := .mk d [] []

/-! ### `utils.ts` numeric tolerance -/

/-- `utils.ts` `numSame`: `Math.abs(num1 - num2) <= TOLERANCE` with
`TOLERANCE = 2`. -/
def numSame (a b : Int) : Bool := |a - b| ≤ 2

/-! ### geometry predicates of `postprocess.ts` (exact comparisons) -/

/-- `postprocess.ts` `isContainedWithinX`. -/
def isContainedWithinX (child parent : VNode) : Bool :=
  child.bounds.left ≥ parent.bounds.left && child.bounds.right ≤ parent.bounds.right

/-- `postprocess.ts` `isContainedWithinY`. -/
def isContainedWithinY (child parent : VNode) : Bool :=
  child.bounds.top ≥ parent.bounds.top && child.bounds.bottom ≤ parent.bounds.bottom

/-- `postprocess.ts` `isContainedWithin`. -/
def isContainedWithin (child parent : VNode) : Bool :=
  isContainedWithinX child parent && isContainedWithinY child parent

/-- `postprocess.ts` `isOverlappingX`. -/
def isOverlappingX (child parent : VNode) : Bool :=
  child.bounds.left < parent.bounds.right && child.bounds.right > parent.bounds.left

/-- `postprocess.ts` `isOverlappingY`. -/
def isOverlappingY (child parent : VNode) : Bool :=
  child.bounds.top < parent.bounds.bottom && child.bounds.bottom > parent.bounds.top

/-- `postprocess.ts` `isOverlapping`. -/
def isOverlapping (child parent : VNode) : Bool :=
  isOverlappingX child parent && isOverlappingY child parent

/-- the bounds-consistency invariant of the spec data model:
`width = right - left` and `height = bottom - top`. -/
def boundsConsistent (b : NBounds) : Prop :=
  b.width = b.right - b.left ∧ b.height = b.bottom - b.top

instance (b : NBounds) : Decidable (boundsConsistent b) := by
  unfold boundsConsistent; infer_instance

/-- C10 -- For all non-degenerate boxes A and B (positive stored width and
height, bounds-consistent so the stored extents agree with the corner
coordinates), `containedWithin A B` implies `overlapping A B`, for the exact
geometry predicates of `postprocess.ts` used by the Tree Builder
(`buildMissingNodes`/`findBestParent`). -/
theorem contained_implies_overlapping (a b : VNode)
    (ha : boundsConsistent a.bounds) (hb : boundsConsistent b.bounds)
    (haw : 0 < a.bounds.width) (hah : 0 < a.bounds.height)
    (hbw : 0 < b.bounds.width) (hbh : 0 < b.bounds.height)
    (h : isContainedWithin a b = true) : isOverlapping a b = true := by
  obtain ⟨haw', hah'⟩ := ha
  obtain ⟨hbw', hbh'⟩ := hb
  simp only [isContainedWithin, isContainedWithinX, isContainedWithinY,
    Bool.and_eq_true, decide_eq_true_eq] at h
  obtain ⟨⟨h1, h2⟩, h3, h4⟩ := h
  simp only [isOverlapping, isOverlappingX, isOverlappingY,
    Bool.and_eq_true, decide_eq_true_eq]
  constructor
  · constructor <;> linarith
  · constructor <;> linarith

/-- closed witness for `contained_implies_overlapping` at a concrete pair of
boxes: a 10×10 box at (5,5) inside a 100×50 box at the origin. -/
theorem contained_implies_overlapping_witness :
    isOverlapping
      (leaf { bounds := ⟨5, 5, 15, 15, 10, 10⟩ })
      (leaf { bounds := ⟨0, 0, 100, 50, 100, 50⟩ }) = true :=
  contained_implies_overlapping
    (leaf { bounds := ⟨5, 5, 15, 15, 10, 10⟩ })
    (leaf { bounds := ⟨0, 0, 100, 50, 100, 50⟩ })
    (by decide) (by decide) (by decide) (by decide) (by decide) (by decide) (by decide)

/-! ### the Tree Builder: `findBestParent` / `buildMissingNodes` -/

/-- `postprocess.ts` `maybeBorder`; the TS returns `undefined` (falsy) when
neither extent is a hairline. -/
def maybeBorder (child parent : VNode) : Bool :=
  if numSame child.bounds.width 1 then
    numSame child.bounds.left parent.bounds.left || numSame child.bounds.right parent.bounds.right
  else if numSame child.bounds.height 1 then
    numSame child.bounds.top parent.bounds.top || numSame child.bounds.bottom parent.bounds.bottom
  else false

/-- the `type` local of `findBestParent`. -/
inductive PType where
  | contained
  | overlapping
deriving DecidableEq, Repr

/-- `node.bounds.width * node.bounds.height`, as computed in `findBestParent`. -/
def nodeArea (v : VNode) : Int := v.bounds.width * v.bounds.height

/-- the loop state of `findBestParent`: `bestParent` is tracked by position in
the sibling array (the TS tracks the object reference), `minArea = none`
encodes the initial `Infinity`. -/
structure FBPState where
  best : Option Nat
  minArea : Option Int
  ptype : PType
deriving DecidableEq, Repr

/-- `area < minArea` where `minArea` may be `Infinity`. -/
def ltInf (a : Int) (m : Option Int) : Bool :=
  match m with
  | none => true
  | some v => a < v

/-- one iteration of the `findBestParent` loop, for the candidate `pp` at
position `j` in the sibling array. -/
def fbpStep (node : VNode) (selfIdx : Nat) (st : FBPState) (j : Nat) (pp : VNode) : FBPState :=
  if j = selfIdx then st
  else if isContainedWithin node pp && (st.ptype == PType.contained) then
    let area := nodeArea pp
    if ltInf area st.minArea then ⟨some j, some area, st.ptype⟩ else st
  else if isOverlapping node pp && !isContainedWithin pp node then
    let area := nodeArea pp
    if area ≥ nodeArea node && node.index > pp.index && ltInf area st.minArea then
      ⟨some j, some area, PType.overlapping⟩
    else ⟨st.best, st.minArea, PType.overlapping⟩
  else st

/-- the `findBestParent` loop over the suffix of the sibling array starting at
absolute position `j`. -/
def fbpGo (node : VNode) (selfIdx : Nat) : Nat → List VNode → FBPState → FBPState
  | _, [], st => st
  | j, pp :: rest, st => fbpGo node selfIdx (j + 1) rest (fbpStep node selfIdx st j pp)

/-- `postprocess.ts` `findBestParent`: the best parent of the node sitting at
position `selfIdx` of `nodes`, returned as a position into `nodes` together
with the final `type`. -/
def findBestParent (node : VNode) (selfIdx : Nat) (nodes : List VNode) : Option Nat × PType :=
  let st := fbpGo node selfIdx 0 nodes ⟨none, none, PType.contained⟩
  (st.best, st.ptype)

/-- what `buildMissingNodes` does with one node of the sibling list. -/
inductive Assign where
  | toChild (j : Nat)
  | toAttach (j : Nat)
  | parentAttach
  | border
  | keep
deriving DecidableEq, Repr

/-- the decision `buildMissingNodes` takes for the node at position `i`:
`findBestParent` reads only bounds and index, which the filter callback never
mutates, so every decision is taken against the original children array. -/
def assignOf (parent : VNode) (nodes : List VNode) (i : Nat) (node : VNode) : Assign :=
  match findBestParent node i nodes with
  | (some j, PType.contained) => .toChild j
  | (some j, PType.overlapping) => .toAttach j
  | (none, PType.overlapping) => .parentAttach
  | (none, PType.contained) => if maybeBorder node parent then .border else .keep

/-- transitive materialisation of the pushes of `buildMissingNodes`: the node
at position `i` receives (recursively updated copies of) every node assigned
to it.  The TS achieves this through shared object references; `fuel` bounds
the nesting depth (chains of distinct positions are shorter than the list, so
`fuel = nodes.length` is exact except when the TS would build a cyclic object
graph out of mutually contained boxes). -/
def bmnUpdate (parent : VNode) (nodes : List VNode) : Nat → Nat → VNode → VNode
  | 0, _, node => node
  | fuel + 1, i, node =>
      let adds := nodes.enum.filterMap fun p =>
        if assignOf parent nodes p.1 p.2 == Assign.toChild i then
          some (bmnUpdate parent nodes fuel p.1 p.2)
        else none
      let atts := nodes.enum.filterMap fun p =>
        if assignOf parent nodes p.1 p.2 == Assign.toAttach i then
          some (bmnUpdate parent nodes fuel p.1 p.2)
        else none
      .mk node.data (node.children ++ adds) (node.attachNodes ++ atts)

/-- `postprocess.ts` `buildMissingNodes`: keep only the flow nodes, push each
contained node into its best parent's `children`, each overlapped node into
its best parent's `attachNodes`, parent-overlapping nodes and hairline borders
(tagged `role = 'border'`) into the parent's `attachNodes`. -/
def buildMissingNodes (parent : VNode) : VNode :=
  let nodes := parent.children
  let upd := fun (i : Nat) (n : VNode) => bmnUpdate parent nodes nodes.length i n
  let kept := nodes.enum.filterMap fun p =>
    if assignOf parent nodes p.1 p.2 == Assign.keep then some (upd p.1 p.2) else none
  let newAttach := nodes.enum.filterMap fun p =>
    match assignOf parent nodes p.1 p.2 with
    | .parentAttach => some (upd p.1 p.2)
    | .border => some ((upd p.1 p.2).withData { (upd p.1 p.2).data with role := ["border"] })
    | _ => none
  .mk parent.data kept (parent.attachNodes ++ newAttach)

/-- invariant of the `findBestParent` loop while no overlap candidate has been
met: over the processed prefix `h` (pairs of absolute position and node),
either nothing qualified yet, or `best`/`minArea` name the first
smallest-area containing candidate so far. -/
def HistInv (node : VNode) (selfIdx : Nat) (h : List (Nat × VNode)) (st : FBPState) : Prop :=
  (st.best = none ∧ st.minArea = none ∧
    ∀ p ∈ h, p.1 ≠ selfIdx → isContainedWithin node p.2 = false)
  ∨ (∃ jb ppb, st.best = some jb ∧ st.minArea = some (nodeArea ppb) ∧ (jb, ppb) ∈ h ∧
      jb ≠ selfIdx ∧ isContainedWithin node ppb = true ∧
      ∀ p ∈ h, p.1 ≠ selfIdx → isContainedWithin node p.2 = true →
        nodeArea ppb ≤ nodeArea p.2 ∧ (nodeArea p.2 = nodeArea ppb → jb ≤ p.1))

theorem fbpGo_contained_inv (node : VNode) (selfIdx : Nat) :
    ∀ (l : List VNode) (j : Nat) (st : FBPState) (h : List (Nat × VNode)),
      st.ptype = .contained →
      (∀ p ∈ h, p.1 < j) →
      (∀ p ∈ l.enumFrom j, p.1 ≠ selfIdx →
        isContainedWithin node p.2 = true ∨
          (isOverlapping node p.2 && !isContainedWithin p.2 node) = false) →
      HistInv node selfIdx h st →
      (fbpGo node selfIdx j l st).ptype = .contained ∧
        HistInv node selfIdx (h ++ l.enumFrom j) (fbpGo node selfIdx j l st) := by
  intro l
  induction l with
  | nil => intro j st h hpt _ _ hinv; simpa [fbpGo] using ⟨hpt, hinv⟩
  | cons pp rest ih =>
    intro j st h hpt hj hl hinv
    have hl' : ∀ p ∈ rest.enumFrom (j + 1), p.1 ≠ selfIdx →
        isContainedWithin node p.2 = true ∨
          (isOverlapping node p.2 && !isContainedWithin p.2 node) = false := by
      intro p hp; exact hl p (by simp [List.enumFrom, hp])
    have happ : h ++ List.enumFrom j (pp :: rest) =
        (h ++ [(j, pp)]) ++ rest.enumFrom (j + 1) := by
      simp [List.enumFrom]
    rw [show fbpGo node selfIdx j (pp :: rest) st =
        fbpGo node selfIdx (j + 1) rest (fbpStep node selfIdx st j pp) from rfl, happ]
    have hj' : ∀ q ∈ h ++ [(j, pp)], q.1 < j + 1 := by
      intro q hq
      rcases List.mem_append.1 hq with hq | hq
      · exact Nat.lt_succ_of_lt (hj q hq)
      · simp at hq; subst hq; exact Nat.lt_succ_self j
    by_cases hself : j = selfIdx
    · -- the loop skips the node itself
      have hstep : fbpStep node selfIdx st j pp = st := by simp [fbpStep, hself]
      rw [hstep]
      refine ih (j + 1) st (h ++ [(j, pp)]) hpt hj' hl' ?_
      rcases hinv with ⟨hb, hm, hcov⟩ | ⟨jb, ppb, hb, hm, hmem, hjb, hc, hcov⟩
      · refine Or.inl ⟨hb, hm, ?_⟩
        intro p hp hne
        rcases List.mem_append.1 hp with hp | hp
        · exact hcov p hp hne
        · simp at hp; subst hp; exact absurd hself hne
      · refine Or.inr ⟨jb, ppb, hb, hm, List.mem_append_left _ hmem, hjb, hc, ?_⟩
        intro p hp hne hcont
        rcases List.mem_append.1 hp with hp | hp
        · exact hcov p hp hne hcont
        · simp at hp; subst hp; exact absurd hself hne
    · by_cases hcont : isContainedWithin node pp = true
      · -- containing candidate: first branch of the loop body
        have hbeq : (st.ptype == PType.contained) = true := by
          rw [hpt]; rfl
        by_cases hlt : ltInf (nodeArea pp) st.minArea = true
        · have hstep : fbpStep node selfIdx st j pp =
              ⟨some j, some (nodeArea pp), st.ptype⟩ := by
            simp [fbpStep, hself, hcont, hbeq, hlt]
          rw [hstep]
          refine ih (j + 1) ⟨some j, some (nodeArea pp), st.ptype⟩ (h ++ [(j, pp)]) hpt hj' hl' ?_
          refine Or.inr ⟨j, pp, rfl, rfl, by simp, hself, hcont, ?_⟩
          intro p hp hne hpc
          rcases List.mem_append.1 hp with hp | hp
          · rcases hinv with ⟨_, hm, hcov⟩ | ⟨jb, ppb, _, hm, _, _, _, hcov⟩
            · exact absurd (hcov p hp hne) (by simp [hpc])
            · have := (hcov p hp hne hpc).1
              have hlt' : nodeArea pp < nodeArea ppb := by
                simpa [ltInf, hm] using hlt
              constructor
              · omega
              · intro he; omega
          · simp at hp; subst hp
            exact ⟨le_refl _, fun _ => le_refl _⟩
        · have hstep : fbpStep node selfIdx st j pp = st := by
            simp [fbpStep, hself, hcont, hbeq, hlt]
          rw [hstep]
          refine ih (j + 1) st (h ++ [(j, pp)]) hpt hj' hl' ?_
          rcases hinv with ⟨_, hm, _⟩ | ⟨jb, ppb, hb, hm, hmem, hjb, hc, hcov⟩
          · exact absurd hlt (by simp [ltInf, hm])
          · refine Or.inr ⟨jb, ppb, hb, hm, List.mem_append_left _ hmem, hjb, hc, ?_⟩
            intro p hp hne hpc
            rcases List.mem_append.1 hp with hp | hp
            · exact hcov p hp hne hpc
            · simp at hp; subst hp
              have hge : nodeArea ppb ≤ nodeArea pp := by
                have := hlt
                simp [ltInf, hm] at this
                omega
              refine ⟨hge, fun he => ?_⟩
              have := hj (jb, ppb) hmem
              omega
      · -- non-containing candidate: by hypothesis the overlap branch is closed
        have hnool : (isOverlapping node pp && !isContainedWithin pp node) = false := by
          rcases hl (j, pp) (by simp [List.enumFrom]) hself with hs | hs
          · exact absurd hs hcont
          · exact hs
        have hstep : fbpStep node selfIdx st j pp = st := by
          simp only [fbpStep]
          rw [if_neg hself, if_neg (by simp [hcont]), if_neg (by simp [hnool])]
        rw [hstep]
        refine ih (j + 1) st (h ++ [(j, pp)]) hpt hj' hl' ?_
        have hcf : isContainedWithin node pp = false := by
          simpa using hcont
        rcases hinv with ⟨hb, hm, hcov⟩ | ⟨jb, ppb, hb, hm, hmem, hjb, hc, hcov⟩
        · refine Or.inl ⟨hb, hm, ?_⟩
          intro p hp hne
          rcases List.mem_append.1 hp with hp | hp
          · exact hcov p hp hne
          · simp at hp; subst hp; exact hcf
        · refine Or.inr ⟨jb, ppb, hb, hm, List.mem_append_left _ hmem, hjb, hc, ?_⟩
          intro p hp hne hpc
          rcases List.mem_append.1 hp with hp | hp
          · exact hcov p hp hne hpc
          · simp at hp; subst hp
            exact absurd hpc (by simp [hcf])

/-- C6 (amended) -- If, in a flat sibling list, every candidate other than the
node itself either geometrically contains the node or fails the overlap test
of the attach branch, and at least one candidate contains it, then
`findBestParent` selects a containing candidate of minimal area, breaking area
ties by the earliest **position in the sibling array** (which agrees with
creation `index` only when the array is index-sorted), and `buildMissingNodes`
accordingly reassigns the node as a child of that candidate
(`Assign.toChild`). -/
theorem findBestParent_smallest_first (node : VNode) (selfIdx : Nat) (nodes : List VNode)
    (hno : ∀ p ∈ nodes.enum, p.1 ≠ selfIdx →
      isContainedWithin node p.2 = true ∨
        (isOverlapping node p.2 && !isContainedWithin p.2 node) = false)
    (hex : ∃ p ∈ nodes.enum, p.1 ≠ selfIdx ∧ isContainedWithin node p.2 = true) :
    ∃ j pp, findBestParent node selfIdx nodes = (some j, PType.contained) ∧
      (j, pp) ∈ nodes.enum ∧ isContainedWithin node pp = true ∧
      (∀ p ∈ nodes.enum, p.1 ≠ selfIdx → isContainedWithin node p.2 = true →
        nodeArea pp ≤ nodeArea p.2 ∧ (nodeArea p.2 = nodeArea pp → j ≤ p.1)) ∧
      (∀ parent, assignOf parent nodes selfIdx node = .toChild j) := by
  have henum : nodes.enum = nodes.enumFrom 0 := rfl
  have hmain := fbpGo_contained_inv node selfIdx nodes 0 ⟨none, none, PType.contained⟩ [] rfl
    (by simp) (by rw [← henum]; exact hno) (Or.inl ⟨rfl, rfl, by simp⟩)
  obtain ⟨hpt, hinv⟩ := hmain
  rw [List.nil_append, ← henum] at hinv
  rcases hinv with ⟨_, _, hcov⟩ | ⟨jb, ppb, hb, _, hmem, hjb, hc, hcov⟩
  · obtain ⟨p, hp, hne, hcont⟩ := hex
    exact absurd (hcov p hp hne) (by simp [hcont])
  · refine ⟨jb, ppb, ?_, hmem, hc, fun p hp hne hpc => hcov p hp hne hpc, ?_⟩
    · show (_, _) = _
      rw [show (nodes.enumFrom 0) = nodes.enum from rfl] at *
      simp [findBestParent, hb, hpt]
    · intro parent
      simp [assignOf, findBestParent, hb, hpt]

/-- concrete node: a 10×10 box at (10,10), creation index 7. -/
def c6A : VNode := leaf { bounds := ⟨10, 10, 20, 20, 10, 10⟩, index := 7 }

/-- concrete node: a 50×50 box at the origin (area 2500), creation index 5. -/
def c6P2 : VNode := leaf { bounds := ⟨0, 0, 50, 50, 50, 50⟩, index := 5 }

/-- concrete node: a 100×25 box at the origin (area 2500), creation index 3. -/
def c6P1 : VNode := leaf { bounds := ⟨0, 0, 100, 25, 100, 25⟩, index := 3 }

/-- concrete node: a 22×7 box overlapping `c6A` without containment either
way, creation index 9. -/
def c6Q : VNode := leaf { bounds := ⟨18, 5, 40, 12, 22, 7⟩, index := 9 }

/-- concrete node: a 50×50 box at the origin containing `c6A`, creation
index 1. -/
def c6P : VNode := leaf { bounds := ⟨0, 0, 50, 50, 50, 50⟩, index := 1 }

/-- C6 counterexample -- the claim fails on the code in two ways, each at an
explicit input.  First, area ties are broken by the earliest **array
position**, not the earliest creation index: with siblings
`[c6A, c6P2, c6P1]`, both `c6P2` (index 5) and `c6P1` (index 3) contain `c6A`
with equal area 2500, yet `findBestParent` picks position 1 = `c6P2`, the one
with the *later* creation index.  Second, a containing sibling does not
guarantee child reassignment: with `[c6A, c6Q, c6P]`, `c6P` contains `c6A`,
but the merely-overlapping sibling `c6Q` flips the loop's `type` to
`overlapping`, so `c6A` is classified as an attach (overlay) node of `c6P`
rather than its child. -/
theorem findBestParent_claim_counterexample :
    (findBestParent c6A 0 [c6A, c6P2, c6P1] = (some 1, PType.contained) ∧
      c6P2.index = 5 ∧ c6P1.index = 3 ∧
      isContainedWithin c6A c6P1 = true ∧ isContainedWithin c6A c6P2 = true ∧
      nodeArea c6P1 = nodeArea c6P2) ∧
    (findBestParent c6A 0 [c6A, c6Q, c6P] = (some 2, PType.overlapping) ∧
      isContainedWithin c6A c6P = true ∧
      assignOf c6P [c6A, c6Q, c6P] 0 c6A = Assign.toAttach 2) := by
  decide

/-- closed witness for `findBestParent_smallest_first` at the sibling list
`[c6A, c6P2]`. -/
theorem findBestParent_smallest_first_witness :
    ∃ j pp, findBestParent c6A 0 [c6A, c6P2] = (some j, PType.contained) ∧
      (j, pp) ∈ ([c6A, c6P2] : List VNode).enum ∧ isContainedWithin c6A pp = true ∧
      (∀ p ∈ ([c6A, c6P2] : List VNode).enum, p.1 ≠ 0 → isContainedWithin c6A p.2 = true →
        nodeArea pp ≤ nodeArea p.2 ∧ (nodeArea p.2 = nodeArea pp → j ≤ p.1)) ∧
      (∀ parent, assignOf parent [c6A, c6P2] 0 c6A = .toChild j) :=
  findBestParent_smallest_first c6A 0 [c6A, c6P2] (by decide) (by decide)

/-! ### list detection: similar boxes, `getBounds`, `groupListXNodes` -/

/-- default node used for (never taken) out-of-bounds `getD` accesses. -/
def dfltVNode : VNode := leaf { bounds := ⟨0, 0, 0, 0, 0, 0⟩ }

/-- truthiness of `vnode.textContent`. -/
def hasText (v : VNode) : Bool := v.data.text != TextKind.noText

/-- `postprocess.ts` `isSimilarBoxX`. -/
def isSimilarBoxX (a b : VNode) : Bool :=
  (hasText a && hasText b &&
    numSame a.bounds.top b.bounds.top && numSame a.bounds.height b.bounds.height) ||
  (!hasText a && !hasText b &&
    numSame a.bounds.top b.bounds.top && numSame a.bounds.width b.bounds.width &&
    numSame a.bounds.height b.bounds.height)

/-- `postprocess.ts` `isSimilarBoxY`. -/
def isSimilarBoxY (a b : VNode) : Bool :=
  (hasText a && hasText b &&
    numSame a.bounds.left b.bounds.left && numSame a.bounds.height b.bounds.height) ||
  (!hasText a && !hasText b &&
    numSame a.bounds.left b.bounds.left && numSame a.bounds.width b.bounds.width &&
    numSame a.bounds.height b.bounds.height)

/-- `postprocess.ts` `isSimilarBoxWrap`. -/
def isSimilarBoxWrap (a b : VNode) : Bool :=
  (hasText a && hasText b && numSame a.bounds.height b.bounds.height) ||
  (!hasText a && !hasText b &&
    numSame a.bounds.width b.bounds.width && numSame a.bounds.height b.bounds.height)

/-- `postprocess.ts` `getBounds`: the union bounding box of a node list.  The
TS folds `min`/`max` from `±Infinity`; on the (never occurring) empty list it
would return infinite bounds, modelled as the zero box. -/
def getBounds (nodes : List VNode) : NBounds :=
  match nodes with
  | [] => ⟨0, 0, 0, 0, 0, 0⟩
  | n :: rest =>
    let st := rest.foldl
      (fun (acc : Int × Int × Int × Int) (v : VNode) =>
        (min acc.1 v.bounds.left, max acc.2.1 v.bounds.right,
         min acc.2.2.1 v.bounds.top, max acc.2.2.2 v.bounds.bottom))
      (n.bounds.left, n.bounds.right, n.bounds.top, n.bounds.bottom)
    ⟨st.1, st.2.2.1, st.2.1, st.2.2.2, st.2.1 - st.1, st.2.2.2 - st.2.2.1⟩

/-- the `_.map(children.slice(1), (current, index) => f current children[index])`
pattern: `f` applied to each adjacent pair (current, previous). -/
def adjacentMap (f : VNode → VNode → Int) (l : List VNode) : List Int :=
  (l.zip l.tail).map fun p => f p.2 p.1

/-- `_.uniqWith(l, numSame).length === 1`: nonempty and every entry
tolerance-equal to the first. -/
def allNumSame (l : List Int) : Bool :=
  match l with
  | [] => false
  | x :: rest => rest.all (numSame x)

/-- `allNumSame` on half-pixel-doubled values (tolerance 2px = 4 half-pixels). -/
def allNumSame2 (l : List Int) : Bool :=
  match l with
  | [] => false
  | x :: rest => rest.all fun y => |x - y| ≤ 4

/-- `_.findIndex(nodes, pred, fromIndex)`. -/
def findIdxFrom (nodes : List VNode) (fromIdx : Nat) (pred : VNode → Bool) : Option Nat :=
  (nodes.enum.find? fun p => decide (fromIdx ≤ p.1) && pred p.2).map Prod.fst

/-- drop the elements whose position lies in one of the removed intervals
(start, length); this is the positional meaning of the `removeEles` calls,
which remove by object identity exactly the collected slices. -/
def removePositions (nodes : List VNode) (rem : List (Nat × Nat)) : List VNode :=
  nodes.enum.filterMap fun p =>
    if rem.any (fun iv => decide (iv.1 ≤ p.1) && decide (p.1 < iv.1 + iv.2)) then none
    else some p.2

/-- the membership test of `findFlexWrap`'s `belowBox`:
`isContainedWithin(node, {left, right, top: repeats.bottom, bottom: Infinity})`,
with the `bottom ≤ Infinity` conjunct always true. -/
def containedBelow (n : VNode) (rb : NBounds) : Bool :=
  n.bounds.left ≥ rb.left && n.bounds.right ≤ rb.right && n.bounds.top ≥ rb.bottom

/-- the wrap-row similarity run of `findFlexWrap`:
`while (isSimilarBoxWrap(nodes[cursor], nodes[baseRepeatStart + repeatCount % repeatGroupCount]))`.
The model adds the `cursor < length` guard under which the source would read
`undefined` and throw; no theorem below exercises that corner.  The cursor
strictly advances, so any fuel above `nodes.length` is exact. -/
def wrapRun (nodes : List VNode) (brs rgc : Nat) : Nat → Nat → Nat → Nat × Nat
  | 0, cursor, rc => (rc, cursor)
  | fuel + 1, cursor, rc =>
    if cursor < nodes.length then
      if isSimilarBoxWrap (nodes.getD cursor dfltVNode) (nodes.getD (brs + rc % rgc) dfltVNode) then
        wrapRun nodes brs rgc fuel (cursor + 1) (rc + 1)
      else (rc, cursor)
    else (rc, cursor)

/-- `postprocess.ts` `findFlexWrap`, functionally: returns the extended
repeat-node list together with the removed position intervals.  `fuel` bounds
the number of wrap rows (each recursion strictly advances the cursor, so
`nodes.length + 1` is always enough). -/
def findFlexWrapF (nodes : List VNode) (brs rgc : Nat) :
    Nat → Nat → List VNode → List VNode × List (Nat × Nat)
  | 0, _, repeatNodes => (repeatNodes, [])
  | fuel + 1, cursor, repeatNodes =>
    let rb := getBounds repeatNodes
    match findIdxFrom nodes cursor (fun n => containedBelow n rb) with
    | none => (repeatNodes, [])
    | some repeatStart =>
      let r := wrapRun nodes brs rgc (nodes.length + 1) repeatStart 0
      if r.1 = 0 then (repeatNodes, [])
      else
        let m := r.1 % rgc
        let rc := r.1 - m
        if rc = 0 then (repeatNodes, [])
        else
          let newNodes := ((nodes.drop repeatStart).take rc)
          let rest := findFlexWrapF nodes brs rgc fuel r.2 (repeatNodes ++ newNodes)
          (rest.1, (repeatStart, rc) :: rest.2)

/-- `checkListXNodesSimilar` (the composite-repeat consistency check), as
`(verdict, updated children)`.  Notes kept faithful to the source:
the first, inner-gap check compares `_.zip(innerGaps)` without spreading, so
`uniqWith` only ever sees singleton lists and the check always passes; and in
the uniform-ruler branch the item width is expanded to at least 80% of the
ruler, `Math.round(rulers[0] * 0.8)` being exact on integer pixels as
`(8r+5) fdiv 10` (4r/5 is never exactly half-integral). -/
def checkListXNodesSimilar (children : List VNode) : Bool × List VNode :=
  let rulers := adjacentMap (fun cur prev => cur.bounds.left - prev.bounds.left) children
  if ¬allNumSame rulers then
    let gaps := adjacentMap (fun cur prev => cur.bounds.left - prev.bounds.right) children
    (allNumSame gaps, children)
  else
    let newWidth :=
      (children.map fun child => child.bounds.width).foldl max
        ((8 * rulers.headD 0 + 5).fdiv 10)
    (true, children.map fun child =>
      child.withData { child.data with bounds :=
        { child.data.bounds with
            width := newWidth, right := child.data.bounds.left + newWidth } })

/-- `checkListXNodesGap` (the single-field-repeat spacing check), as
`(verdict, updated children)`.  The text-centerline gaps are half-integral on
integer pixels, so they are tracked doubled (`allNumSame2`); the re-centering
width update applies `widthDiff = Math.round(newWidth - width) / 2` to both
sides — the embedding floors that half-integral shift, a deviation of half a
pixel confined to this branch, which no theorem below exercises. -/
def checkListXNodesGap (children : List VNode) : Bool × List VNode :=
  if children.length > 2 then
    let gaps := adjacentMap (fun cur prev => cur.bounds.left - prev.bounds.right) children
    if allNumSame gaps then (true, children)
    else if hasText (children.headD dfltVNode) then
      let cgaps2 := adjacentMap
        (fun cur prev =>
          (2 * cur.bounds.left + cur.bounds.width) - (2 * prev.bounds.right + prev.bounds.width))
        children
      if allNumSame2 cgaps2 then
        let newWidth := (cgaps2.headD 0 + 2).fdiv 4
        (true, children.map fun child =>
          let d := (newWidth - child.data.bounds.width).fdiv 2
          child.withData { child.data with bounds :=
            { child.data.bounds with
                width := newWidth,
                left := child.data.bounds.left - d,
                right := child.data.bounds.right + d } })
      else (false, children)
    else (false, children)
  else (true, children)

/-- the inner similarity run of `groupListXNodes`:
`while (++i < nodes.length && isSimilarBoxX(nodes[++compareIndex], nodes[i])) repeatCount++`,
returning `(repeatCount, i, compareIndex)` after the loop.  `i` strictly
advances, so any fuel above `nodes.length` is exact. -/
def glxRun (nodes : List VNode) : Nat → Nat → Nat → Nat → Nat × Nat × Nat
  | 0, i, ci, rc => (rc, i + 1, ci + 1)
  | fuel + 1, i, ci, rc =>
    if i + 1 < nodes.length then
      if isSimilarBoxX (nodes.getD (ci + 1) dfltVNode) (nodes.getD (i + 1) dfltVNode) then
        glxRun nodes fuel (i + 1) (ci + 1) (rc + 1)
      else (rc, i + 1, ci + 1)
    else (rc, i + 1, ci + 1)

/-- `_.each(children, child => { child.role = 'list-item'; })`. -/
def setRoleListItem (l : List VNode) : List VNode :=
  l.map fun child => child.withData { child.data with role := ["list-item"] }

/-- split into consecutive chunks of length `k` (`children.slice(j, j + k)`
for `j = 0, k, 2k, …`). -/
def chunkList (k : Nat) : Nat → List VNode → List (List VNode)
  | _, [] => []
  | 0, l => [l]
  | fuel + 1, x :: rest =>
    if k = 0 then [x :: rest]
    else (x :: rest).take k :: chunkList k fuel ((x :: rest).drop k)

/-- wrap each chunk of `repeatGroupCount` repeat nodes into a `list-item` row
container, threading the `context.index` counter. -/
def chunkWrap (c : Nat) (k : Nat) (l : List VNode) : List VNode × Nat :=
  (chunkList k (l.length + 1) l).foldl
    (fun acc g =>
      (acc.1 ++ [VNode.mk
        { classList := [], bounds := getBounds g, role := ["list-item"],
          direction := some .row, index := acc.2 } g []], acc.2 + 1))
    ([], c)

/-- the group-emission step of `groupListXNodes`: build the `list-x` /
`list-wrap` container over `finalChildren`, remove the grouped positions, and
hand the remainder from `baseRepeatStart` back to the scan (`glxGo`), keeping
the untouched prefix. -/
def glxEmitData (c : Nat) (rc1 : Nat) (finalChildren : List VNode) :
    VData × List VNode × Nat :=
  let isWrap := decide (finalChildren.length > rc1)
  let d : VData :=
    { classList := [], bounds := getBounds finalChildren,
      role := if isWrap then ["list-wrap"] else ["list-x"],
      direction := some .row,
      widthSpec := if isWrap then none else some .auto,
      heightSpec := if isWrap then some .auto else none,
      index := c }
  let childrenF :=
    if isWrap then
      finalChildren.map fun child => child.withData { child.data with heightSpec := some .fixed }
    else finalChildren
  (d, childrenF, c + 1)

/-- the scanning loop of `groupListXNodes` (`for (let i = 1; ...)` with its
`compareIndex` state), plus rebuild-and-recurse on success.  One fuel unit is
consumed per loop iteration and per restart on the remainder, so any fuel at
least `(length+1)*(length+2)` behaves exactly like the source. -/
def glxGo : Nat → Nat → List VNode → Nat → Nat → List VNode × Nat
  | 0, c, nodes, _, _ => (nodes, c)
  | fuel + 1, c, nodes, i, ci =>
    if i < nodes.length then
      let cur := nodes.getD i dfltVNode
      let prev := nodes.getD (i - 1) dfltVNode
      if ¬numSame cur.bounds.top prev.bounds.top then
        glxGo fuel c nodes (i + 1) i
      else if ¬isSimilarBoxX (nodes.getD ci dfltVNode) cur then
        glxGo fuel c nodes (i + 1) ci
      else
        let brs := ci
        let rgc := i - ci
        let r := glxRun nodes (nodes.length + 1) i ci (rgc + 1)
        let m := r.1 % rgc
        let rc1 := r.1 - m
        let i2 := r.2.1 - m
        let ci1 := r.2.2
        if rc1 = 0 then glxGo fuel c nodes (i2 + 1) ci1
        else if rgc = 1 ∧ hasText (nodes.getD brs dfltVNode) = true ∧ rc1 = 2 then
          glxGo fuel c nodes (i2 + 1) ci1
        else
          let children0 := (nodes.drop brs).take rc1
          let fw := findFlexWrapF nodes brs rgc (nodes.length + 1) i2 children0
          let childrenW := fw.1
          let intervals := (brs, rc1) :: fw.2
          if 1 < rgc then
            let cw := chunkWrap c rgc childrenW
            if childrenW.length = rc1 ∧ (checkListXNodesSimilar cw.1).1 = false then
              glxGo fuel cw.2 nodes (i2 + 1) ci1
            else
              let groups :=
                if childrenW.length = rc1 then (checkListXNodesSimilar cw.1).2 else cw.1
              let em := glxEmitData cw.2 rc1 groups
              let tail := (removePositions nodes intervals).drop brs
              let rest := glxGo fuel em.2.2 tail 1 0
              (nodes.take brs ++ VNode.mk em.1 em.2.1 [] :: rest.1, rest.2)
          else
            if childrenW.length = rc1 ∧ (checkListXNodesGap childrenW).1 = false then
              glxGo fuel c nodes (i2 + 1) ci1
            else
              let childrenG :=
                if childrenW.length = rc1 then (checkListXNodesGap childrenW).2 else childrenW
              let em := glxEmitData c rc1 (setRoleListItem childrenG)
              let tail := (removePositions nodes intervals).drop brs
              let rest := glxGo fuel em.2.2 tail 1 0
              (nodes.take brs ++ VNode.mk em.1 em.2.1 [] :: rest.1, rest.2)
    else (nodes, c)

/-- `postprocess.ts` `groupListXNodes`, counter-threaded. -/
def groupListXNodes (c : Nat) (nodes : List VNode) : List VNode × Nat :=
  glxGo ((nodes.length + 1) * (nodes.length + 2)) c nodes 1 0

/-! ### `groupListYNodes` and its non-advancing inner loop -/

/-- the guard of the inner repeat-counting `while` of `groupListYNodes`:
`i < nodes.length && isSimilarBoxY(nodes[i], nodes[i-1])`.  The loop body
(`repeatCount++`) never changes `i`. -/
def glyGuard (nodes : List VNode) (i : Nat) : Bool :=
  decide (i < nodes.length) &&
    isSimilarBoxY (nodes.getD i dfltVNode) (nodes.getD (i - 1) dfltVNode)

/-- the inner `while` of `groupListYNodes` under a fuel bound; `none` means
the fuel ran out, i.e. the source loop has not terminated within `fuel`
iterations. -/
def glyWhile (nodes : List VNode) : Nat → Nat → Nat → Option Nat
  | 0, _, _ => none
  | fuel + 1, i, rc => if glyGuard nodes i then glyWhile nodes fuel i (rc + 1) else some rc

/-- the scan loop of `groupListYNodes` over `i = 1, 2, …`; returns the
(possibly regrouped) parent and counter, or `none` if the inner while loop
exhausts its fuel.  `ifuel` bounds the scan itself (any value above
`nodes.length` is exact). -/
def glyScan (fuel : Nat) (c : Nat) (parent : VNode) (nodes : List VNode) :
    Nat → Nat → Option (VNode × Nat)
  | 0, _ => some (parent, c)
  | ifuel + 1, i =>
    if i < nodes.length then
      if isSimilarBoxY (nodes.getD i dfltVNode) (nodes.getD (i - 1) dfltVNode) then
        let brs := i - 1
        match glyWhile nodes fuel (i + 1) 2 with
        | none => none
        | some rc =>
          let children := (nodes.drop brs).take rc
          -- the source computes X-axis gaps (`left - right`) here even though
          -- this is the vertical list check
          let gaps := adjacentMap (fun cur prev => cur.bounds.left - prev.bounds.right) children
          if ¬allNumSame gaps then some (parent, c)
          else
            let nodes' := nodes.map fun child =>
              child.withData { child.data with role := ["list-item"], heightSpec := some .fixed }
            -- the source stamps every child of the parent, not only the group
            if brs = 0 ∧ rc = nodes.length then
              some ((parent.withChildren nodes').withData
                { parent.data with role := ["list-y"], heightSpec := some .auto }, c)
            else
              let groupChildren := (nodes'.drop brs).take rc
              let vnode := VNode.mk
                { classList := [], bounds := getBounds groupChildren, role := ["list-y"],
                  heightSpec := some .auto, index := c } groupChildren []
              some (parent.withChildren
                (nodes'.take brs ++ vnode :: nodes'.drop (brs + rc)), c + 1)
      else glyScan fuel c parent nodes ifuel (i + 1)
    else some (parent, c)

/-- `postprocess.ts` `groupListYNodes`, counter-threaded and fueled.  The
entry assert (`direction === Column`) throws in the source on violation,
modelled as `none`; `none` also reports that the inner while loop exceeded
`fuel` iterations. -/
def groupListYNodesF (fuel : Nat) (c : Nat) (parent : VNode) : Option (VNode × Nat) :=
  if parent.data.direction ≠ some .col then none
  else if parent.children.length < 2 then some (parent, c)
  else glyScan fuel c parent parent.children (parent.children.length + 1) 1

/-- three vertically stacked, pairwise `isSimilarBoxY`-similar 100×50 boxes. -/
def c3nodes : List VNode :=
  [leaf { bounds := ⟨0, 0, 100, 50, 100, 50⟩, index := 1 },
   leaf { bounds := ⟨0, 60, 100, 110, 100, 50⟩, index := 2 },
   leaf { bounds := ⟨0, 120, 100, 170, 100, 50⟩, index := 3 }]

/-- a Column-direction parent whose children are `c3nodes`. -/
def c3parent : VNode :=
  VNode.mk { bounds := ⟨0, 0, 100, 200, 100, 200⟩, direction := some .col, index := 0 }
    c3nodes []

theorem glyWhile_c3_diverges : ∀ fuel rc, glyWhile c3nodes fuel 2 rc = none := by
  intro fuel
  induction fuel with
  | zero => intro rc; rfl
  | succ n ih =>
    intro rc
    have hg : glyGuard c3nodes 2 = true := by decide
    simp only [glyWhile, hg, if_true]
    exact ih (rc + 1)

/-- C3 -- `groupListYNodes` does **not** terminate on a Column parent whose
sorted children contain three consecutive pairwise-similar boxes: after the
first similar pair is found at `i = 1`, the inner repeat-counting `while`
tests `isSimilarBoxY(nodes[2], nodes[1])` without ever advancing `i`, so its
guard stays true and `repeatCount++` runs forever.  In the fueled model, no
amount of fuel makes the function return. -/
theorem groupListYNodes_c3_diverges : ∀ fuel c, groupListYNodesF fuel c c3parent = none := by
  intro fuel c
  have hch : c3parent.children = c3nodes := rfl
  rw [groupListYNodesF, if_neg (by decide), if_neg (by simp [hch]; decide), hch]
  rw [glyScan, if_pos (by decide), if_pos (by decide)]
  rw [glyWhile_c3_diverges fuel 2]

theorem numSame_symm (x y : Int) : numSame x y = numSame y x := by
  simp [numSame, abs_sub_comm]

/-- concrete single-line text node, 40×20 at the origin. -/
def c4t1 : VNode := leaf { bounds := ⟨0, 0, 40, 20, 40, 20⟩, text := .singleLine, index := 1 }

/-- concrete single-line text node, 40×20 at x = 60 on the same line. -/
def c4t2 : VNode := leaf { bounds := ⟨60, 0, 100, 20, 40, 20⟩, text := .singleLine, index := 2 }

/-- C4 counterexample -- a contiguous run of exactly two similar single text
nodes (unit length L = 1, repeated R = 2) whose spacing check passes is *not*
folded: `groupListXNodes` hits the explicit
`repeatGroupCount === 1 && textContent && repeatCount === 2` exception
("text nodes repeat by coincidence; ignore a pair") and returns the sibling
list unchanged, with no container synthesised and the id counter untouched. -/
theorem groupListXNodes_two_text_ignored :
    groupListXNodes 0 [c4t1, c4t2] = ([c4t1, c4t2], 0) ∧
    isSimilarBoxX c4t1 c4t2 = true ∧ hasText c4t1 = true ∧
    (checkListXNodesGap [c4t1, c4t2]).1 = true := by
  refine ⟨rfl, by decide, by decide, by decide⟩

/-- C4 (amended) -- a sorted flow list consisting of a run of exactly two
similar **non-text** nodes (L = 1, R = 2, spacing check trivially consistent)
is folded by `groupListXNodes` into a single synthesised `list-x` container:
`direction = Row`, `widthSpec = Auto`, bounds the union box, the two nodes
retagged `role = list-item` as its children, and the id counter advanced by
one for the container. -/
theorem groupListXNodes_two_similar_nontext_grouped (a b : VNode) (c : Nat)
    (hna : hasText a = false) (hnb : hasText b = false)
    (htop : numSame a.bounds.top b.bounds.top = true)
    (hw : numSame a.bounds.width b.bounds.width = true)
    (hh : numSame a.bounds.height b.bounds.height = true) :
    groupListXNodes c [a, b] =
      ([VNode.mk
          { classList := [], bounds := getBounds (setRoleListItem [a, b]), role := ["list-x"],
            direction := some .row, widthSpec := some .auto, heightSpec := none, index := c }
          (setRoleListItem [a, b]) []], c + 1) := by
  have hsym : numSame b.bounds.top a.bounds.top = true := by rw [numSame_symm]; exact htop
  have hsim : isSimilarBoxX a b = true := by
    simp [isSimilarBoxX, hna, hnb, htop, hw, hh]
  show glxGo (11 + 1) c [a, b] 1 0 = _
  rw [glxGo]
  rw [if_pos (show 1 < ([a, b] : List VNode).length by simp)]
  simp only [show ([a, b] : List VNode).getD 1 dfltVNode = b from rfl,
    show ([a, b] : List VNode).getD 0 dfltVNode = a from rfl,
    show ([a, b] : List VNode).length = 2 from rfl]
  rw [if_neg (show ¬¬(numSame b.bounds.top a.bounds.top = true) by simp [hsym])]
  rw [if_neg (show ¬¬(isSimilarBoxX a b = true) by simp [hsim])]
  simp only [show glxRun [a, b] (2 + 1) 1 0 (1 - 0 + 1) = (2, 2, 1) from rfl]
  rw [if_neg (by norm_num)]
  rw [if_neg (by simp [hna])]
  simp only [show ((2 : Nat) - 2 % (1 - 0)) = 2 from rfl, show ((1 : Nat) - 0) = 1 from rfl,
    show List.take 2 (List.drop 0 ([a, b] : List VNode)) = [a, b] from rfl,
    show findFlexWrapF [a, b] 0 1 (2 + 1) 2 [a, b] = ([a, b], []) from rfl]
  rw [if_neg (by norm_num)]
  rw [if_neg (by simp [show (checkListXNodesGap [a, b]).1 = true from rfl])]
  rw [if_pos (by simp)]
  simp only [show (checkListXNodesGap [a, b]).2 = [a, b] from rfl,
    show (removePositions [a, b] [(0, 2)]).drop 0 = ([] : List VNode) from rfl,
    show ∀ c', glxGo 11 c' [] 1 0 = ([], c') from fun _ => rfl]
  rfl

/-- concrete non-text node, 40×20 at the origin. -/
def c4n1 : VNode := leaf { bounds := ⟨0, 0, 40, 20, 40, 20⟩, index := 1 }

/-- concrete non-text node, 40×20 at x = 60 on the same line. -/
def c4n2 : VNode := leaf { bounds := ⟨60, 0, 100, 20, 40, 20⟩, index := 2 }

/-- closed witness for `groupListXNodes_two_similar_nontext_grouped` at the
pair `[c4n1, c4n2]`. -/
theorem groupListXNodes_two_similar_nontext_grouped_witness :
    groupListXNodes 0 [c4n1, c4n2] =
      ([VNode.mk
          { classList := [], bounds := getBounds (setRoleListItem [c4n1, c4n2]),
            role := ["list-x"], direction := some .row,
            widthSpec := some .auto, heightSpec := none, index := 0 }
          (setRoleListItem [c4n1, c4n2]) []], 0 + 1) :=
  groupListXNodes_two_similar_nontext_grouped c4n1 c4n2 0
    (by decide) (by decide) (by decide) (by decide) (by decide)

/-! ### merging parallel `list-x` rows (`findMergeableListXNodes` / `tryMergeListXNodes`) -/

/-- `R` applied to a lone `<pre>-<v>` token. -/
def rTok (pre : String) (v : Int) : String :=
  if v = 0 then ""
  else if 0 < v then pre ++ "-" ++ toString v
  else "-" ++ pre ++ "-" ++ toString (-v)

/-- `R` applied to `"<head> <pre>-<v>"` (e.g. `justify-end p${ee}-${g}`). -/
def rHeadTok (head pre : String) (v : Int) : String :=
  if v = 0 then head
  else if 0 < v then head ++ " " ++ pre ++ "-" ++ toString v
  else head ++ "- " ++ pre ++ "-" ++ toString (-v)

/-- `R` applied to `"<head> <pre1>-<v1> <pre2>-<v2>"`
(`justify-between p${ss}-${s} p${ee}-${e}`).  When the first token is
zero-valued its match swallows the separating space, gluing the head directly
onto the second token; a zero-valued final token leaves the first token's
trailing space behind. -/
def rHeadTok2 (head pre1 : String) (v1 : Int) (pre2 : String) (v2 : Int) : String :=
  if v1 = 0 then
    if v2 = 0 then head
    else if 0 < v2 then head ++ pre2 ++ "-" ++ toString v2
    else head ++ "-" ++ pre2 ++ "-" ++ toString (-v2)
  else
    let s1 :=
      if 0 < v1 then head ++ " " ++ pre1 ++ "-" ++ toString v1
      else head ++ "- " ++ pre1 ++ "-" ++ toString (-v1)
    if v2 = 0 then s1 ++ " "
    else if 0 < v2 then s1 ++ " " ++ pre2 ++ "-" ++ toString v2
    else s1 ++ "- " ++ pre2 ++ "-" ++ toString (-v2)

/-- append one class token (`vnode.classList.push(...)`). -/
def pushCls (v : VNode) (s : String) : VNode :=
  v.withData { v.data with classList := v.data.classList ++ [s] }

/-! ### the first-variant justification engine (`postprocess.ts` `measureFlexJustify`) -/

/-- `_.isArray(vnode.textContent)` (multi-line text). -/
def isMultiLineTextV1 (v : VNode) : Bool := v.data.text == TextKind.multiLine

/-- `isFlexWrapLike` of the first variant. -/
def isFlexWrapLikeV1 (v : VNode) : Bool :=
  v.data.role == ["list-wrap"] || isMultiLineTextV1 v

/-- `Math.round(a + b / 2)` on integer pixels: `⌊(2a + b + 1) / 2⌋`, exact
because `a + b/2` is either integral or exactly half-integral and JS rounds
halves up. -/
def jsRoundHalfSum (a b : Int) : Int := (2 * a + b + 1).fdiv 2

/-- the inner `justifyFlex1` of the first variant's `measureFlexJustify`:
synthesise the invisible `flex-1` spacer over the dominant gap; the spacer's
cross-axis spec is left unset (unlike the second variant). -/
def justifyFlex1V1 (c : Nat) (parent : VNode) (startGap endGap : Int)
    (gaps : List Int) (ranges : List (Int × Int)) : VNode × Nat :=
  let children := parent.children
  let row := parent.data.direction == some Dir.row
  let pxy := if row then "px" else "py"
  let pee := if row then "pr" else "pb"
  let mss := if row then "ml" else "mt"
  let gaps1 := startGap :: gaps
  let maxG1 := gaps1.foldl max (gaps1.headD 0)
  let idx := gaps1.findIdx fun g => g == maxG1
  let gaps2 := gaps1.set idx 0
  let gaps3 := gaps2.take idx ++ 0 :: gaps2.drop idx
  let pos := jsRoundHalfSum (if row then parent.bounds.top else parent.bounds.left)
    (if row then parent.bounds.bottom else parent.bounds.right)
  let rpair := ranges.getD idx (0, 0)
  let spacer : VNode := leaf
    { classList := ["flex-1"],
      bounds :=
        if row then ⟨rpair.2, pos, rpair.1, pos, rpair.1 - rpair.2, 0⟩
        else ⟨pos, rpair.2, pos, rpair.1, 0, rpair.1 - rpair.2⟩,
      widthSpec := if row then some .constrained else none,
      heightSpec := if row then none else some .constrained,
      index := c }
  let children1 := children.take idx ++ spacer :: children.drop idx
  let st :=
    if numSame startGap endGap then (pushCls parent (rTok pxy startGap), gaps3.set 0 0)
    else (pushCls parent (rTok pee endGap), gaps3)
  let children2 := (children1.zip st.2).map fun p => pushCls p.1 (rTok mss p.2)
  (st.1.withChildren children2, c + 1)

/-- `children[0].classList.push(s)`: push a token on the first child only. -/
def modHeadCls (l : List VNode) (s : String) : List VNode :=
  match l with
  | [] => []
  | h :: t => pushCls h s :: t

/-- `_.each(children.slice(1), (child, i) => child.classList.push(R`m…-${gaps[i]}`))`:
margin tokens on every child but the first. -/
def keepHeadPushCls (l : List VNode) (g : List Int) (s : String) : List VNode :=
  match l with
  | [] => []
  | h :: t => h :: (t.zip g).map fun p => pushCls p.1 (rTok s p.2)

/-- the branch structure of the first variant's `measureFlexJustify`, over
the precomputed gap data (`startGap`/`endGap`/middle `gaps`/`ranges`). -/
def mfjV1core (c : Nat) (parent : VNode) (startGap endGap : Int) (gaps : List Int)
    (ranges : List (Int × Int)) : VNode × Nat :=
  let children := parent.children
  let row := parent.data.direction == some Dir.row
  let pxy := if row then "px" else "py"
  let pss := if row then "pl" else "pt"
  let pee := if row then "pr" else "pb"
  let mss := if row then "ml" else "mt"
  let mee := if row then "mr" else "mb"
  let spaceTok := if row then "space-x" else "space-y"
  let equalMiddleGaps := decide (gaps.length > 1) && allNumSame gaps
  if gaps.isEmpty || (equalMiddleGaps && numSame (gaps.headD 0) 0) then
    -- one child, or children packed tight
    if children.length = 1 ∧ row ∧ isFlexWrapLikeV1 (children.headD dfltVNode) = true then
      (parent, c)
    else if numSame startGap endGap then (pushCls parent "justify-center", c)
    else if startGap < endGap then (pushCls parent (rTok pss startGap), c)
    else (pushCls parent (rHeadTok "justify-end" pee startGap), c)
  else if equalMiddleGaps then
    let sameGap := gaps.headD 0
    if numSame startGap endGap && numSame (startGap * 2) sameGap && decide (startGap ≠ 0) then
      (pushCls parent "justify-around", c)
    else if sameGap > startGap ∧ sameGap > endGap then
      (pushCls parent (rHeadTok2 "justify-between" pss startGap pee endGap), c)
    else
      let parent1 :=
        if numSame startGap endGap then pushCls parent "justify-center"
        else if startGap < endGap then pushCls parent (rTok pss startGap)
        else pushCls parent (rHeadTok "justify-end" pee startGap)
      if gaps.length = 1 then
        (parent1.withChildren (modHeadCls children (rTok mee sameGap)), c)
      else (pushCls parent1 (rTok spaceTok sameGap), c)
  else
    let maxGap := gaps.foldl max (gaps.headD 0)
    if maxGap > startGap ∧ maxGap > endGap then
      justifyFlex1V1 c parent startGap endGap gaps ranges
    else if numSame startGap endGap then
      ((pushCls parent "justify-center").withChildren (keepHeadPushCls children gaps mss), c)
    else if startGap < endGap then
      let ch := (children.zip (startGap :: gaps)).map fun p => pushCls p.1 (rTok mss p.2)
      ((pushCls parent "justify-start").withChildren ch, c)
    else
      let ch := (children.zip (gaps ++ [endGap])).map fun p => pushCls p.1 (rTok mee p.2)
      ((pushCls parent "justify-end").withChildren ch, c)

/-- `postprocess.ts` `measureFlexJustify` (delegating to `mfjV1core` /
`justifyFlex1V1`), counter-threaded.  The caller (`measureFlexLayout`) only
invokes it on a parent with a set `direction` and nonempty `children`. -/
def measureFlexJustifyV1 (c : Nat) (parent : VNode) : VNode × Nat :=
  let children := parent.children
  let row := parent.data.direction == some Dir.row
  let ssfP := if row then parent.bounds.left else parent.bounds.top
  let eefP := if row then parent.bounds.right else parent.bounds.bottom
  let ssfC := fun (n : VNode) => if row then n.bounds.left else n.bounds.top
  let eefC := fun (n : VNode) => if row then n.bounds.right else n.bounds.bottom
  let ranges := ((children.map ssfC) ++ [eefP]).zip (ssfP :: children.map eefC)
  let gapsAll := ranges.map fun p => p.1 - p.2
  let startGap := gapsAll.headD 0
  let endGap := (gapsAll.drop 1).getLastD 0
  let gaps := (gapsAll.drop 1).dropLast
  mfjV1core c parent startGap endGap gaps ranges

/-- Scenario B, first flow child: 100×50 at x ∈ [0,100], Fixed both axes. -/
def c2ch1 : VNode :=
  leaf
    { bounds := ⟨0, 0, 100, 50, 100, 50⟩, widthSpec := some .fixed, heightSpec := some .fixed,
      index := 1 }

/-- Scenario B, second flow child: 100×50 at x ∈ [250,350], Fixed both axes. -/
def c2ch2 : VNode :=
  leaf
    { bounds := ⟨250, 0, 350, 50, 100, 50⟩, widthSpec := some .fixed, heightSpec := some .fixed,
      index := 2 }

/-- Scenario B parent: Row direction, Constrained width, x ∈ [0,400]
(edge gaps 0 and 50, middle gap 150). -/
def c2parent : VNode :=
  VNode.mk
    { bounds := ⟨0, 0, 400, 50, 400, 50⟩, direction := some .row, widthSpec := some .constrained,
      heightSpec := some .fixed, index := 0 }
    [c2ch1, c2ch2] []

/-- C2 (amended, first-variant engine) -- on Scenario B the `postprocess.ts`
justification engine takes the dominant-middle-gap branch
(`maxGap > startGap && maxGap > endGap`) into `justifyFlex1`: it synthesises
an invisible `flex-1` spacer spanning exactly the middle gap x ∈ [100,250]
between the two real children, and emits only the edge padding `pr-50` — no
`justify-between` (or any other justify) utility anywhere in the output. -/
theorem measureFlexJustifyV1_scenarioB :
    measureFlexJustifyV1 0 c2parent =
      (VNode.mk
        { bounds := ⟨0, 0, 400, 50, 400, 50⟩, direction := some .row,
          widthSpec := some .constrained, heightSpec := some .fixed, index := 0,
          classList := ["pr-50"] }
        [pushCls c2ch1 "",
         VNode.mk
          { classList := ["flex-1", ""], bounds := ⟨100, 25, 250, 25, 150, 0⟩,
            widthSpec := some .constrained, index := 0 } [] [],
         pushCls c2ch2 ""] [], 1) ∧
    (∀ s ∈ (measureFlexJustifyV1 0 c2parent).1.data.classList ++
        ((measureFlexJustifyV1 0 c2parent).1.children.map fun ch => ch.data.classList).flatten,
      ¬s.startsWith "justify") :=
  ⟨rfl, by decide⟩

/-- C5 (code bug) -- evaluating the first-variant justification engine on
Scenario B: the synthesised `flex-1` spacer child leaves this measure pass
with `heightSpec` still unset (`SizeSpec.Unknown`), even though both real
children and the parent carry fully resolved specs; `justifyFlex1` only
assigns the main-axis spec (`[spec1Spec]: Constrained`), unlike the
second-variant `maybeInsertFlex1Node`, which also sets
`[spec2Spec]: Fixed`. -/
theorem justifyFlex1_spacer_heightSpec_unknown :
    (let sp := (measureFlexJustifyV1 0 c2parent).1.children.getD 1 dfltVNode
     "flex-1" ∈ sp.data.classList ∧ sp.data.heightSpec = none ∧
       sp.data.widthSpec = some SSpec.constrained) ∧
    (measureFlexJustifyV1 0 c2parent).1.children.length = 3 ∧
    (∀ ch ∈ c2parent.children, ch.data.widthSpec ≠ none ∧ ch.data.heightSpec ≠ none) ∧
    c2parent.data.widthSpec = some SSpec.constrained ∧
    c2parent.data.heightSpec = some SSpec.fixed := by
  refine ⟨⟨by decide, by decide, by decide⟩, by decide, by decide, by decide, by decide⟩

/-! ### the second-variant justification engine (`measureFlexJustify` module)

This module imports tolerance comparators and overflow helpers from files
that are not part of src; those are modelled from the spec below and marked
as such. -/

/-- Modelled from the spec: the second variant's `numEq` — "tolerance-based
numeric equality (default tolerance ε ≈ 2 units)". -/
def numEq (a b : Int) : Bool := |a - b| ≤ 2

/-- Modelled from the spec: the second variant's `numGt` — greater beyond the
tolerance ε = 2. -/
def numGt (a b : Int) : Bool := a - b > 2

/-- Modelled from the spec: the second variant's `numLte` — less-or-equal up
to the tolerance ε = 2 (the negation of `numGt`). -/
def numLte (a b : Int) : Bool := a - b ≤ 2

/-- Modelled from the spec: the second variant's `allNumsEqual` — all entries
tolerance-equal (vacuously true on empty and singleton lists). -/
def allNumsEqual (l : List Int) : Bool :=
  match l with
  | [] => true
  | x :: rest => rest.all (numEq x)

/-- `vnode/helpers.ts` `isRole`. -/
def isRoleV2 (v : VNode) (r : String) : Bool := v.data.role.contains r

/-- `vnode/helpers.ts` `isListContainer`. -/
def isListContainerV2 (v : VNode) : Bool :=
  isRoleV2 v "list-x" || isRoleV2 v "list-y" || isRoleV2 v "list-wrap"

/-- `vnode/helpers.ts` `isFlexWrapLike` (`list-wrap` container or multi-line
text, via the `textMultiLine` flag). -/
def isFlexWrapLikeV2 (v : VNode) : Bool :=
  isRoleV2 v "list-wrap" || v.data.text == TextKind.multiLine

/-- `vnode/helpers.ts` `getClassList`:
`classList.join(' ').split(' ').filter(Boolean)`. -/
def getClassListV2 (v : VNode) : List String :=
  ((" ".intercalate v.data.classList).splitOn " ").filter (· ≠ "")

/-- Modelled from the spec: `autoMaybeClamp` lives in the absent
`measureOverflow` module and decides when an Auto child keeps a clamped size;
the spec never describes clamping, so the model never clamps.  Only branches
guarded by an Auto spec consult it, and no theorem below exercises those. -/
def autoMaybeClampM (_child : VNode) (_row : Bool) : Bool := false

/-- Modelled from the spec: `canChildStretchWithParent` (absent
`measureParentSizeSpec` module); spec §4.6 promotes Auto children of a
Constrained parent unconditionally, so the model always allows the stretch.
Only branches guarded by an Auto or unset spec consult it. -/
def canChildStretchM (_child _parent : VNode) (_row : Bool) : Bool := true

/-- Modelled from the spec: `expandOverflowChild` (absent `measureOverflow`
module) adjusts overflow styling of Auto children; not described by the spec,
modelled as the identity.  Only Auto children reach it. -/
def expandOverflowChildM (child : VNode) : VNode := child

/-- Modelled from the spec: `setSiblingsNoShrink` (absent `measureOverflow`
module) only flags siblings as non-shrinking; not described by the spec,
modelled as the identity (it affects neither bounds, specs, spacer synthesis
nor the justify tokens the theorems below observe). -/
def setSiblingsNoShrinkM (parent : VNode) : VNode := parent

/-- the `helpers.ts` `R` on an optional `" <pre>-<v>"` tail token: zero
tokens vanish (the separator is preserved by `normalizeClassName`), negative
values move their sign before the prefix. -/
def optTokV2 (pre : String) (v : Int) : String :=
  if v = 0 then "" else " " ++ rTok pre v

/-- `justifySide` of `getGapsAndSide`. -/
inductive JSide where
  | sideStart
  | sideEnd
  | sideCenter
deriving DecidableEq, Repr

/-- result record of `getGapsAndSide`. -/
structure GapsSide where
  startGap : Int
  endGap : Int
  gaps : List Int
  equalMiddleGaps : Bool
  justifySide : JSide
  ranges : List (Int × Int)

/-- the second variant's `getGapsAndSide`. -/
def getGapsAndSideV2 (parent : VNode) : GapsSide :=
  let row := parent.data.direction == some Dir.row
  let ssfP := if row then parent.bounds.left else parent.bounds.top
  let eefP := if row then parent.bounds.right else parent.bounds.bottom
  let ssfC := fun (n : VNode) => if row then n.bounds.left else n.bounds.top
  let eefC := fun (n : VNode) => if row then n.bounds.right else n.bounds.bottom
  let ranges := ((parent.children.map ssfC) ++ [eefP]).zip (ssfP :: parent.children.map eefC)
  let gapsAll := ranges.map fun p => p.1 - p.2
  let startGap := gapsAll.headD 0
  let endGap := (gapsAll.drop 1).getLastD 0
  let gaps := (gapsAll.drop 1).dropLast
  { startGap := startGap, endGap := endGap, gaps := gaps,
    equalMiddleGaps := allNumsEqual gaps,
    justifySide :=
      if numEq startGap endGap then .sideCenter
      else if numLte startGap endGap then .sideStart
      else .sideEnd,
    ranges := ranges }

/-- the main-axis spec of a node under the given direction. -/
def jSpec (row : Bool) (v : VNode) : Option SSpec :=
  if row then v.data.widthSpec else v.data.heightSpec

/-- set the main-axis spec of a node under the given direction. -/
def setJSpec (row : Bool) (v : VNode) (s : SSpec) : VNode :=
  if row then v.withData { v.data with widthSpec := some s }
  else v.withData { v.data with heightSpec := some s }

/-- the second variant's `decideChildrenJustifySpec`.  (For a Column parent
with a flex-wrap-like Auto child, the source asserts
`justifySpec === 'widthSpec'` and would throw; the model keeps the update,
and no theorem below reaches that corner.) -/
def decideChildrenJustifySpecV2 (parent : VNode) : VNode :=
  let row := parent.data.direction == some Dir.row
  let pspec := jSpec row parent
  parent.withChildren (parent.children.map fun child =>
    match jSpec row child with
    | some .constrained => if pspec == some .fixed then setJSpec row child .fixed else child
    | some .auto =>
      if autoMaybeClampM child row then child
      else if isFlexWrapLikeV2 child then
        if pspec == some .constrained then setJSpec row child .constrained
        else setJSpec row child .fixed
      else if pspec == some .constrained && canChildStretchM child parent row then
        setJSpec row child .constrained
      else child
    | some .fixed => child
    | none =>
      if pspec == some .fixed then setJSpec row child .fixed
      else if pspec == some .constrained && canChildStretchM child parent row then
        setJSpec row child .constrained
      else setJSpec row child .fixed)

/-- the second variant's `expandOverflowChildrenIfPossible`. -/
def expandOverflowChildrenIfPossibleV2 (parent : VNode) : VNode :=
  let row := parent.data.direction == some Dir.row
  if jSpec row parent ≠ some .constrained then parent
  else
    setSiblingsNoShrinkM (parent.withChildren (parent.children.map fun child =>
      if jSpec row child == some .auto then expandOverflowChildM child else child))

/-- the second variant's `maybeSpaceJustify`; `some` means a space-based
utility was emitted and the engine returns. -/
def maybeSpaceJustifyV2 (parent : VNode) (row : Bool) (startGap endGap : Int)
    (gaps : List Int) : Option VNode :=
  let sameGap := gaps.headD 0
  let pspec := jSpec row parent
  if !numEq sameGap 0 && !numEq startGap 0 && numEq startGap endGap &&
      numEq (startGap * 2) sameGap && !(pspec == some SSpec.auto) then
    some (pushCls parent "justify-around")
  else if !numEq sameGap 0 && numGt sameGap startGap && numGt sameGap endGap &&
      !(pspec == some SSpec.auto) then
    let ss := if row then "pl" else "pt"
    let ee := if row then "pr" else "pb"
    some (pushCls parent ("justify-between" ++ optTokV2 ss startGap ++ optTokV2 ee endGap))
  else none

/-- `_.lastIndexOf` over an `Int` list known to contain `x`. -/
def lastIdxOf (l : List Int) (x : Int) : Nat :=
  l.length - 1 - l.reverse.findIdx (· == x)

/-- the second variant's `maybeInsertFlex1Node`: `some (children', gaps')`
when the spacer is inserted.  The synthesised spacer's main-axis size is the
source's deliberate trick: the gap extent when `flex1MinSize`, otherwise `0`
(the second variant's `newVNode` assigns no creation index; the model uses
0). -/
def maybeInsertFlex1NodeV2 (parent : VNode) (row : Bool) (flex1MinSize : Bool)
    (justifySide : JSide) (startGap endGap : Int) (gaps : List Int)
    (ranges : List (Int × Int)) : Option (List VNode × List Int) :=
  if justifySide == JSide.sideCenter && numLte (gaps.foldl max (gaps.headD 0)) (startGap * 2) then
    none
  else
    let idxOpt : Option Nat :=
      if justifySide == JSide.sideStart || justifySide == JSide.sideCenter then
        let gws := gaps ++ [endGap]
        let maxGap := gws.foldl max (gws.headD 0)
        let i := lastIdxOf gws maxGap
        if i = gaps.length ∨ maxGap = 0 then none else some i
      else
        let gws := startGap :: gaps
        let maxGap := gws.foldl max (gws.headD 0)
        let i := gws.findIdx (· == maxGap)
        if i = 0 ∨ maxGap = 0 then none else some (i - 1)
    match idxOpt with
    | none => none
    | some idx =>
      let pos := jsRoundHalfSum (if row then parent.bounds.top else parent.bounds.left)
        (if row then parent.bounds.bottom else parent.bounds.right)
      let rpair := ranges.getD (idx + 1) (0, 0)
      let spacer : VNode := leaf
        { classList := [],
          bounds :=
            if row then ⟨rpair.2, pos, rpair.1, pos, if flex1MinSize then rpair.1 - rpair.2 else 0, 0⟩
            else ⟨pos, rpair.2, pos, rpair.1, 0, if flex1MinSize then rpair.1 - rpair.2 else 0⟩,
          widthSpec := if row then some .constrained else some .fixed,
          heightSpec := if row then some .fixed else some .constrained,
          index := 0 }
      let gaps' := gaps.take idx ++ 0 :: 0 :: gaps.drop (idx + 1)
      let children' := parent.children.take (idx + 1) ++ spacer :: parent.children.drop (idx + 1)
      some (children', gaps')

/-- modify the last element of a list, if any. -/
def modifyLastCls (l : List VNode) (s : String) : List VNode :=
  match l.getLast? with
  | none => l
  | some v => l.dropLast ++ [pushCls v s]

/-- the second variant's `sideJustify`. -/
def sideJustifyV2 (parent : VNode) (row : Bool) (justifySide : JSide)
    (startGap endGap : Int) (gaps : List Int) (needEqualGaps : Bool) : VNode :=
  let pss := if row then "pl" else "pt"
  let pee := if row then "pr" else "pb"
  let pxy := if row then "px" else "py"
  let mss := if row then "ml" else "mt"
  let mee := if row then "mr" else "mb"
  let spaceTok := if row then "space-x" else "space-y"
  let pspec := jSpec row parent
  let hasConstrainedChilds := parent.children.any fun child => jSpec row child == some .constrained
  let parent1 :=
    if hasConstrainedChilds then parent
    else match justifySide with
      | .sideCenter =>
        if pspec == some SSpec.auto then pushCls parent (rTok pxy startGap)
        else pushCls parent "justify-center"
      | .sideStart =>
        if pspec == some SSpec.auto then pushCls parent (rTok pee endGap) else parent
      | .sideEnd =>
        let p := pushCls parent "justify-end"
        if pspec == some SSpec.auto then pushCls p (rTok pss startGap) else p
  let parent2 :=
    if hasConstrainedChilds then
      let gapsS := startGap :: gaps
      let ch := (parent1.children.zip gapsS).map fun p => pushCls p.1 (rTok mss p.2)
      parent1.withChildren (modifyLastCls ch (rTok mee endGap))
    else if needEqualGaps then
      let p := pushCls parent1 (rTok spaceTok (gaps.headD 0))
      let p := if justifySide == JSide.sideStart then pushCls p (rTok pss startGap)
        else if justifySide == JSide.sideEnd then pushCls p (rTok pee endGap) else p
      p
    else match justifySide with
      | .sideCenter =>
        let ch := match parent1.children with
          | [] => []
          | h :: t => h :: (t.zip gaps).map fun p => pushCls p.1 (rTok mss p.2)
        parent1.withChildren ch
      | .sideStart =>
        let ch := (parent1.children.zip (startGap :: gaps)).map fun p =>
          pushCls p.1 (rTok mss p.2)
        parent1.withChildren ch
      | .sideEnd =>
        let ch := (parent1.children.zip (gaps ++ [endGap])).map fun p =>
          pushCls p.1 (rTok mee p.2)
        parent1.withChildren ch
  parent2.withChildren (parent2.children.map fun child =>
    if jSpec row child == some .constrained then
      pushCls child ("grow" ++ optTokV2 (if row then "w" else "h")
        (if row then child.bounds.width else child.bounds.height))
    else child)

/-- the second variant's `measureFlexJustify`. -/
def measureFlexJustifyV2 (parent : VNode) : VNode :=
  let row := parent.data.direction == some Dir.row
  let p1 := decideChildrenJustifySpecV2 parent
  let p2 := expandOverflowChildrenIfPossibleV2 p1
  let gs := getGapsAndSideV2 p2
  let hasConstrainedChilds := p2.children.any fun child => jSpec row child == some .constrained
  let spaceResult :=
    if !hasConstrainedChilds && gs.equalMiddleGaps && !isListContainerV2 p2 then
      maybeSpaceJustifyV2 p2 row gs.startGap gs.endGap gs.gaps
    else none
  match spaceResult with
  | some p' => p'
  | none =>
    let isParentAutoMinSize := jSpec row p2 == some SSpec.auto &&
      (getClassListV2 p2).any fun cn => cn.startsWith ("min-" ++ (if row then "w" else "h") ++ "-")
    let needEqualGaps := gs.equalMiddleGaps &&
      (decide (p2.children.length > 2) || isListContainerV2 p2)
    let needFlex1 := (jSpec row p2 == some SSpec.constrained || isParentAutoMinSize) &&
      decide (p2.children.length > 2) && !needEqualGaps && !hasConstrainedChilds
    let st :=
      if needFlex1 then
        match maybeInsertFlex1NodeV2 p2 row isParentAutoMinSize gs.justifySide gs.startGap
            gs.endGap gs.gaps gs.ranges with
        | some r => (p2.withChildren r.1, r.2)
        | none => (p2, gs.gaps)
      else (p2, gs.gaps)
    sideJustifyV2 st.1 row gs.justifySide gs.startGap gs.endGap st.2 needEqualGaps

@[simp] theorem VNode.withData_children (v : VNode) (d : VData) :
    (v.withData d).children = v.children := by cases v; rfl

@[simp] theorem VNode.withData_data (v : VNode) (d : VData) :
    (v.withData d).data = d := by cases v; rfl

@[simp] theorem VNode.withChildren_children (v : VNode) (l : List VNode) :
    (v.withChildren l).children = l := by cases v; rfl

@[simp] theorem pushCls_children (v : VNode) (s : String) :
    (pushCls v s).children = v.children := by simp [pushCls]

@[simp] theorem pushCls_bounds (v : VNode) (s : String) :
    (pushCls v s).bounds = v.bounds := by simp [pushCls, VNode.bounds]

theorem bounds_mem_zip_push (s : String) (l : List VNode) (g : List Int) (ch : VNode)
    (h : ch ∈ (l.zip g).map fun p => pushCls p.1 (rTok s p.2)) :
    ∃ v ∈ l, ch.bounds = v.bounds := by
  simp only [List.mem_map] at h
  obtain ⟨⟨a, b⟩, hp, rfl⟩ := h
  exact ⟨a, (List.of_mem_zip hp).1, by simp⟩

theorem mem_modHeadCls (l : List VNode) (s : String) (ch : VNode)
    (h : ch ∈ modHeadCls l s) : ∃ v ∈ l, ch.bounds = v.bounds := by
  cases l with
  | nil => simp [modHeadCls] at h
  | cons hd t =>
    simp only [modHeadCls, List.mem_cons] at h
    rcases h with rfl | h
    · exact ⟨hd, by simp, by simp⟩
    · exact ⟨ch, by simp [h], rfl⟩

theorem mem_keepHeadPushCls (l : List VNode) (g : List Int) (s : String) (ch : VNode)
    (h : ch ∈ keepHeadPushCls l g s) : ∃ v ∈ l, ch.bounds = v.bounds := by
  cases l with
  | nil => simp [keepHeadPushCls] at h
  | cons hd t =>
    simp only [keepHeadPushCls, List.mem_cons] at h
    rcases h with rfl | h
    · exact ⟨ch, by simp, rfl⟩
    · obtain ⟨v, hv, hbe⟩ := bounds_mem_zip_push _ _ _ ch h
      exact ⟨v, by simp [hv], hbe⟩

theorem justifyFlex1V1_bounds (c : Nat) (parent : VNode) (sg eg : Int) (gaps : List Int)
    (ranges : List (Int × Int))
    (hch : ∀ ch ∈ parent.children, boundsConsistent ch.bounds) :
    ∀ ch ∈ (justifyFlex1V1 c parent sg eg gaps ranges).1.children, boundsConsistent ch.bounds := by
  intro ch hc
  simp only [justifyFlex1V1, VNode.withChildren_children] at hc
  obtain ⟨v, hv, hbe⟩ := bounds_mem_zip_push _ _ _ ch hc
  rw [hbe]
  rcases List.mem_append.1 hv with hv | hv
  · exact hch v (List.mem_of_mem_take hv)
  · rcases List.mem_cons.1 hv with rfl | hv
    · simp only [leaf, VNode.bounds, VNode.data_mk]
      split
      · exact ⟨rfl, by ring⟩
      · exact ⟨by ring, rfl⟩
    · exact hch v (List.mem_of_mem_drop hv)

/-- C2 counterexample -- on the very same Scenario B input, the
second-variant justify engine does the opposite of the claim: spacer
synthesis there additionally requires **more than two** children
(`parent.children.length > 2` inside `needFlex1`; the source comments that
two elements with a large middle gap should take `justify-between` instead),
so it inserts no spacer and emits the edge-justify token
`justify-between pr-50` via `maybeSpaceJustify`. -/
theorem measureFlexJustifyV2_scenarioB_counterexample :
    measureFlexJustifyV2 c2parent = pushCls c2parent "justify-between pr-50" ∧
    "justify-between pr-50" ∈ (measureFlexJustifyV2 c2parent).data.classList ∧
    (measureFlexJustifyV2 c2parent).children.length = 2 :=
  ⟨rfl, by decide, by decide⟩

/-- flex1-trick scenario, first child: 100×50 at x ∈ [0,100]. -/
def c1A : VNode :=
  leaf
    { bounds := ⟨0, 0, 100, 50, 100, 50⟩, widthSpec := some .fixed, heightSpec := some .fixed,
      index := 1 }

/-- flex1-trick scenario, second child: 100×50 at x ∈ [110,210]. -/
def c1B : VNode :=
  leaf
    { bounds := ⟨110, 0, 210, 50, 100, 50⟩, widthSpec := some .fixed, heightSpec := some .fixed,
      index := 2 }

/-- flex1-trick scenario, third child: 50×50 at x ∈ [450,500]. -/
def c1C : VNode :=
  leaf
    { bounds := ⟨450, 0, 500, 50, 50, 50⟩, widthSpec := some .fixed, heightSpec := some .fixed,
      index := 3 }

/-- flex1-trick scenario parent: Row, Constrained width, x ∈ [0,500]
(edge gaps 0 and 0, middle gaps 10 and 240). -/
def c1P : VNode :=
  VNode.mk
    { bounds := ⟨0, 0, 500, 50, 500, 50⟩, direction := some .row, widthSpec := some .constrained,
      heightSpec := some .fixed, index := 0 }
    [c1A, c1B, c1C] []

/-- C1 counterexample -- a bounds-consistent input on which the
second-variant justify engine synthesises a flex-1 spacer whose stored
`width` is 0 while `right - left` is the absorbed 240px gap: with
`flex1MinSize = false` (Constrained parent), `maybeInsertFlex1Node` sets the
main-axis size to 0 as a documented trick, so the claimed
`width = right - left` equality fails on the synthesised node in the output
tree. -/
theorem flex1_width_zero_counterexample :
    (boundsConsistent c1P.bounds ∧ ∀ ch ∈ c1P.children, boundsConsistent ch.bounds) ∧
    (let sp := (measureFlexJustifyV2 c1P).children.getD 2 dfltVNode
     sp.data.widthSpec = some SSpec.constrained ∧ sp.bounds.width = 0 ∧
       sp.bounds.right - sp.bounds.left = 240 ∧ ¬boundsConsistent sp.bounds) := by
  exact ⟨⟨by decide, by decide⟩, by decide, by decide, by decide, by decide⟩

/-- C1 (amended) -- the bounds-consistency invariant
(`width = right-left`, `height = bottom-top`) is preserved by the
first-variant justification engine for every child of the output, including
the `flex-1` spacer synthesised by `justifyFlex1` (its main-axis size is the
gap extent and its cross-axis size is 0 with equal edges); and the
second-variant `maybeInsertFlex1Node` also preserves it **when**
`flex1MinSize` is true.  (With `flex1MinSize = false` the second variant
deliberately zeroes the main-axis size — see the counterexample.) -/
theorem flex1_spacer_bounds_consistency :
    (∀ (c : Nat) (parent : VNode),
      (∀ ch ∈ parent.children, boundsConsistent ch.bounds) →
      ∀ ch ∈ (measureFlexJustifyV1 c parent).1.children, boundsConsistent ch.bounds) ∧
    (∀ (parent : VNode) (row : Bool) (side : JSide) (sg eg : Int) (gaps : List Int)
        (ranges : List (Int × Int)) (res : List VNode × List Int),
      (∀ ch ∈ parent.children, boundsConsistent ch.bounds) →
      maybeInsertFlex1NodeV2 parent row true side sg eg gaps ranges = some res →
      ∀ ch ∈ res.1, boundsConsistent ch.bounds) := by
  constructor
  · have core : ∀ (c : Nat) (parent : VNode) (sg eg : Int) (gaps : List Int)
        (ranges : List (Int × Int)),
        (∀ ch ∈ parent.children, boundsConsistent ch.bounds) →
        ∀ ch ∈ (mfjV1core c parent sg eg gaps ranges).1.children, boundsConsistent ch.bounds := by
      intro c parent sg eg gaps ranges hch ch hc
      simp only [mfjV1core] at hc
      repeat' split at hc
      all_goals try exact hch ch hc
      all_goals try (simp only [pushCls_children] at hc; exact hch ch hc)
      all_goals try exact justifyFlex1V1_bounds _ _ _ _ _ _ hch ch hc
      all_goals simp only [VNode.withChildren_children] at hc
      all_goals first
        | exact Exists.elim (mem_modHeadCls _ _ ch hc) fun v hp => hp.2.symm ▸ hch v hp.1
        | exact Exists.elim (mem_keepHeadPushCls _ _ _ ch hc) fun v hp => hp.2.symm ▸ hch v hp.1
        | exact Exists.elim (bounds_mem_zip_push _ _ _ ch hc) fun v hp => hp.2.symm ▸ hch v hp.1
    intro c parent hch
    exact core c parent _ _ _ _ hch
  · intro parent row side sg eg gaps ranges res hch hres ch hmem
    simp only [maybeInsertFlex1NodeV2] at hres
    split at hres
    · exact absurd hres (by simp)
    · split at hres
      · exact absurd hres (by simp)
      · rename_i idx heq
        injection hres with hres
        rw [← hres] at hmem
        simp only at hmem
        rcases List.mem_append.1 hmem with hv | hv
        · exact hch ch (List.mem_of_mem_take hv)
        · rcases List.mem_cons.1 hv with rfl | hv
          · simp only [leaf, VNode.bounds, VNode.data_mk]
            split
            · exact ⟨rfl, by ring⟩
            · exact ⟨by ring, rfl⟩
          · exact hch ch (List.mem_of_mem_drop hv)

/-- closed witness for `flex1_spacer_bounds_consistency`: the first conjunct
applied to Scenario B (whose spacer spans x ∈ [100,250] with width 150). -/
theorem flex1_spacer_bounds_consistency_witness :
    ∀ ch ∈ (measureFlexJustifyV1 0 c2parent).1.children, boundsConsistent ch.bounds :=
  flex1_spacer_bounds_consistency.1 0 c2parent (by decide)

/-- `R` applied to the two-hole template `"<pre1>-<v1> <pre2>-<v2>"`
(`left-${left} right-${right}` / `top-${top} bottom-${bottom}`).  As with
`rHeadTok2`, a zero-valued first token's regex match swallows the separating
space (so the result keeps a *leading* space), and a zero-valued second token
leaves the first token's trailing space behind. -/
def rTok2 (pre1 : String) (v1 : Int) (pre2 : String) (v2 : Int) : String :=
  if v1 = 0 then
    if v2 = 0 then " "
    else if 0 < v2 then " " ++ pre2 ++ "-" ++ toString v2
    else " -" ++ pre2 ++ "-" ++ toString (-v2)
  else
    let s1 :=
      if 0 < v1 then pre1 ++ "-" ++ toString v1
      else "-" ++ pre1 ++ "-" ++ toString (-v1)
    if v2 = 0 then s1 ++ " "
    else if 0 < v2 then s1 ++ " " ++ pre2 ++ "-" ++ toString v2
    else s1 ++ " -" ++ pre2 ++ "-" ++ toString (-v2)

/-- the per-attach-node body of `measureAttachPosition`: compute the four
edge offsets, push `absolute`, then anchor each axis (nearer edge if the
spec is `Fixed`; both edges + `Constrained` if the node spans more than half
the parent; otherwise freeze childless nodes to `Fixed` and anchor the nearer
edge). -/
def attachPosOne (parent att : VNode) : VNode :=
  let left := att.bounds.left - parent.bounds.left
  let right := parent.bounds.right - att.bounds.right
  let top := att.bounds.top - parent.bounds.top
  let bottom := parent.bounds.bottom - att.bounds.bottom
  let att := pushCls att "absolute"
  let hasNoChildren := att.children.isEmpty
  let att :=
    if att.data.widthSpec == some SSpec.fixed then
      if |left| < |right| then pushCls att (rTok "left" left)
      else pushCls att (rTok "right" right)
    else if att.bounds.width * 2 > parent.bounds.width then
      let att := pushCls att (rTok2 "left" left "right" right)
      att.withData { att.data with widthSpec := some SSpec.constrained }
    else
      let att :=
        if hasNoChildren then att.withData { att.data with widthSpec := some SSpec.fixed }
        else att
      if |left| < |right| then pushCls att (rTok "left" left)
      else pushCls att (rTok "right" right)
  if att.data.heightSpec == some SSpec.fixed then
    if |top| < |bottom| then pushCls att (rTok "top" top)
    else pushCls att (rTok "bottom" bottom)
  else if att.bounds.height * 2 > parent.bounds.height then
    let att := pushCls att (rTok2 "top" top "bottom" bottom)
    att.withData { att.data with heightSpec := some SSpec.constrained }
  else
    let att :=
      if hasNoChildren then att.withData { att.data with heightSpec := some SSpec.fixed }
      else att
    if |top| < |bottom| then pushCls att (rTok "top" top)
    else pushCls att (rTok "bottom" bottom)

/-- `measureAttachPosition`: walk `attachNodes`; on each iteration push
`relative` on the parent unless its classList already carries a
`relative`/`absolute`/`fixed` entry (so at most one push), and rewrite the
attach node with `attachPosOne`. -/
def measureAttachPosition (parent : VNode) : VNode :=
  let res := parent.attachNodes.foldl
    (fun (acc : VNode × List VNode) att =>
      let p := acc.1
      let p :=
        if p.data.classList.any
            (fun c => c == "relative" || c == "absolute" || c == "fixed") then p
        else pushCls p "relative"
      (p, acc.2 ++ [attachPosOne p att]))
    (parent, [])
  res.1.withAttach res.2

/-- Scenario C overlay: 50×30 box at (10,10)-(60,40), no children, size
specs not yet resolved. -/
def c9attU : VNode := leaf { bounds := ⟨10, 10, 60, 40, 50, 30⟩, index := 1 }

/-- Scenario C overlay with both size specs already `Fixed`. -/
def c9attF : VNode :=
  leaf
    { bounds := ⟨10, 10, 60, 40, 50, 30⟩, widthSpec := some .fixed, heightSpec := some .fixed,
      index := 1 }

/-- Scenario C parent: 300×300 at the origin, with the given overlay as its
only attach node. -/
def c9parent (att : VNode) : VNode :=
  VNode.mk { bounds := ⟨0, 0, 300, 300, 300, 300⟩, index := 0 } [] [att]

/-- C9 (confirmed) -- Scenario C: a 50×30 overlay at (10,10)-(60,40) with no
children inside a 300×300 parent at the origin.  Whether the overlay's size
specs start unresolved or already `Fixed`, `measureAttachPosition` leaves/sets
both specs `Fixed`, anchors to the nearer edges (left and top) with 10px
offsets (`absolute left-10 top-10`), and marks the parent `relative`. -/
theorem measureAttachPosition_scenarioC :
    ((measureAttachPosition (c9parent c9attU)).attachNodes.getD 0 dfltVNode).data.widthSpec
        = some SSpec.fixed ∧
    ((measureAttachPosition (c9parent c9attU)).attachNodes.getD 0 dfltVNode).data.heightSpec
        = some SSpec.fixed ∧
    ((measureAttachPosition (c9parent c9attU)).attachNodes.getD 0 dfltVNode).data.classList
        = ["absolute", "left-10", "top-10"] ∧
    (measureAttachPosition (c9parent c9attU)).data.classList = ["relative"] ∧
    ((measureAttachPosition (c9parent c9attF)).attachNodes.getD 0 dfltVNode).data.widthSpec
        = some SSpec.fixed ∧
    ((measureAttachPosition (c9parent c9attF)).attachNodes.getD 0 dfltVNode).data.heightSpec
        = some SSpec.fixed ∧
    ((measureAttachPosition (c9parent c9attF)).attachNodes.getD 0 dfltVNode).data.classList
        = ["absolute", "left-10", "top-10"] ∧
    (measureAttachPosition (c9parent c9attF)).data.classList = ["relative"] :=
  ⟨rfl, rfl, rfl, rfl, rfl, rfl, rfl, rfl⟩

/-! ### counter independence (the module-level `context.index` state)

The only cross-run state of the conversion is the module-level id counter
`context.index`; it is consumed exclusively as the `index` bookkeeping field
of newly synthesised nodes and never flows into class tokens, margins, sizes
or size specs.  `eraseIdx` erases exactly that field, so two runs agreeing
after `eraseIdx` agree on everything the emitted output contains. -/

mutual

def eraseIdx : VNode → VNode
  | .mk d c a => .mk { d with index := 0 } (eraseL c) (eraseL a)

def eraseL : List VNode → List VNode
  | [] => []
  | v :: vs => eraseIdx v :: eraseL vs

end

theorem eraseL_cons (v : VNode) (vs : List VNode) :
    eraseL (v :: vs) = eraseIdx v :: eraseL vs := rfl

theorem eraseIdx_children (v : VNode) : (eraseIdx v).children = eraseL v.children := by
  cases v; rfl

theorem eraseIdx_hasText (v : VNode) : hasText (eraseIdx v) = hasText v := by
  cases v; rfl

theorem eraseIdx_getD : ∀ {l1 l2 : List VNode}, eraseL l1 = eraseL l2 →
    ∀ (i : Nat) (d : VNode), eraseIdx (l1.getD i d) = eraseIdx (l2.getD i d) := by
  intro l1
  induction l1 with
  | nil =>
    intro l2 he i d
    cases l2 with
    | nil => rfl
    | cons w ws => simp [eraseL, eraseL_cons] at he
  | cons v vs ih =>
    intro l2 he i d
    cases l2 with
    | nil => simp [eraseL, eraseL_cons] at he
    | cons w ws =>
      rw [eraseL_cons, eraseL_cons] at he
      injection he with h1 h2
      cases i with
      | zero => simpa using h1
      | succ j => simpa using ih h2 j d

theorem fErase {β : Type} (f : VNode → β) (hf : ∀ v, f (eraseIdx v) = f v)
    {x y : VNode} (h : eraseIdx x = eraseIdx y) : f x = f y := by
  rw [← hf x, h, hf y]

end H5
